import Mathlib

/-!
Shallow embedding of the region-container engine of `nbt/region.py`:
the header table, per-chunk status derivation, the sector allocator of
`write_chunk`, and the read/write/delete operations.  The backing file is
modelled as a size plus a byte function; every read normalises bytes mod 256
(a real file only holds bytes below 256).  The external compression and
tree-codec collaborators (`zlib`, `gzip`, `NBTFile`) are parameters of the
operations that use them.
-/

deriving instance DecidableEq for Except

namespace NBTRegion

/-- Model of the backing binary file: its length in bytes and its contents.
Bytes at positions at or beyond `size` are irrelevant (reads truncate). -/
structure FFile where
  size : Nat
  byte : Nat → Nat

/-- Python `file.seek(pos); file.read(n)`: returns the `min n (size - pos)`
bytes available at `pos`, each normalised to the byte range. -/
def readAt (f : FFile) (pos n : Nat) : List Nat :=
  (List.range (min n (f.size - pos))).map (fun i => f.byte (pos + i) % 256)

/-- Python `file.seek(pos); file.write(data)`: overwrites `data.length` bytes
at `pos`, zero-filling any gap between the old end of file and `pos`, and
extending the file when the write reaches past the old end. -/
def writeAt (f : FFile) (pos : Nat) (data : List Nat) : FFile :=
  { size := max f.size (pos + data.length)
    byte := fun i =>
      if pos ≤ i ∧ i < pos + data.length then data.getD (i - pos) 0
      else if i < f.size then f.byte i else 0 }

/-- Big-endian value of a byte list, as in `struct.unpack` of `>I` / 3-byte
offsets (`unpack(">IB", b"\0" + bytes4)`). -/
def beVal (bs : List Nat) : Nat :=
  bs.foldl (fun a b => 256 * a + b) 0

/-- Big-endian 4-byte encoding of `n`, as produced by `pack(">I", n)`
for `n < 2^32` (the callers below model `struct.error` for larger values). -/
def be4 (n : Nat) : List Nat :=
  [n / 16777216 % 256, n / 65536 % 256, n / 256 % 256, n % 256]

/-- `RegionFile._bytes_to_sector`: sectors of 4096 bytes needed to hold
`bsize` bytes, by `divmod` (ceiling division).  The Python call site
`_bytes_to_sector(file_length)` can receive `-1` (for a 0-byte file, from
`tell() - 1`); Python returns `0` there, which coincides with this `Nat`
version applied to `0 - 1 = 0`, so `Nat` arithmetic is faithful. -/
def bytes_to_sector (bsize : Nat) : Nat :=
  if bsize % 4096 = 0 then bsize / 4096 else bsize / 4096 + 1

/-- The status constants of `RegionFile` (`STATUS_CHUNK_*`). -/
inductive ChunkStatus where
  | overlapping
  | mismatchedLengths
  | zeroLength
  | inHeader
  | outOfFile
  | ok
  | notCreated
deriving DecidableEq

/-- Numeric value of each status constant (`-5` .. `1`), used by Python when
tuples containing a status are compared during `sorted`. -/
def statusCode : ChunkStatus → Int
  | .overlapping => -5
  | .mismatchedLengths => -4
  | .zeroLength => -3
  | .inHeader => -2
  | .outOfFile => -1
  | .ok => 0
  | .notCreated => 1

/-- One entry of `self.header`: `(offset, sectionlength, timestamp, status)`. -/
structure HeaderEntry where
  offset : Nat
  length : Nat
  timestamp : Nat
  status : ChunkStatus
deriving DecidableEq

/-- The status cascade of `parse_header` (lines 174-193): first match wins. -/
def headerStatus (offset length size : Nat) : ChunkStatus :=
  if offset = 0 ∧ length = 0 then .notCreated
  else if length = 0 then .mismatchedLengths
  else if offset < 2 ∧ offset ≠ 0 then .inHeader
  else if (offset + length) * 4096 > size then .outOfFile
  else .ok

/-- Read and classify the header-table entry of coordinate `(x, z)` for a
file already known to hold a full 8192-byte header (the loop body of
`parse_header`).  The slot sits at byte `4*(x + z*32)`; the 4 bytes there
split as a 3-byte big-endian sector offset and a 1-byte sector length, and
the timestamp is the 4-byte big-endian value 4096 bytes further. -/
def parseHeaderEntry (f : FFile) (x z : Nat) : HeaderEntry :=
  { offset := beVal ((readAt f (4 * (x + z * 32)) 4).take 3)
    length := (readAt f (4 * (x + z * 32)) 4).getD 3 0
    timestamp := beVal (readAt f (4 * (x + z * 32) + 4096) 4)
    status := headerStatus (beVal ((readAt f (4 * (x + z * 32)) 4).take 3))
      ((readAt f (4 * (x + z * 32)) 4).getD 3 0) f.size }

/-- `parse_header` seen at one coordinate: a 0-byte file and a file shorter
than 8192 bytes both leave the slot in `init_header` form `(0,0,0,NotCreated)`
(the short-file case additionally signals `NoRegionHeader`, see
`parse_header_err`); otherwise the slot is read and classified. -/
def parseHeader (f : FFile) (x z : Nat) : HeaderEntry :=
  if f.size = 0 then ⟨0, 0, 0, .notCreated⟩
  else if f.size < 8192 then ⟨0, 0, 0, .notCreated⟩
  else parseHeaderEntry f x z

/-- The error signal of `parse_header`: `NoRegionHeader` is raised exactly
when the file size is nonzero but below the two header sectors. -/
inductive RegionErr where
  | noRegionHeader
deriving DecidableEq

/-- Which error, if any, `parse_header` raises for a given file. -/
def parse_header_err (f : FFile) : Option RegionErr :=
  if f.size = 0 then none
  else if f.size < 8192 then some .noRegionHeader
  else none

/-- One entry of `self.chunk_headers`: `(length, compression, chunk_status)`. -/
structure ChunkHeader where
  length : Option Nat
  compression : Option Nat
  status : ChunkStatus
deriving DecidableEq

/-- The loop body of `parse_chunk_headers` at coordinate `(x, z)`: refine the
coarse status by reading the 5-byte chunk header at the slot's sector. -/
def parseChunkHeader (f : FFile) (x z : Nat) : ChunkHeader :=
  match (parseHeader f x z).status with
  | .notCreated => ⟨none, none, .notCreated⟩
  | .ok =>
      ⟨some (beVal (readAt f ((parseHeader f x z).offset * 4096) 4)),
       some ((readAt f ((parseHeader f x z).offset * 4096 + 4) 1).getD 0 0),
       if beVal (readAt f ((parseHeader f x z).offset * 4096) 4) = 0 then
         .zeroLength
       else if beVal (readAt f ((parseHeader f x z).offset * 4096) 4) + 4 >
           (parseHeader f x z).length * 4096 then .mismatchedLengths
       else .ok⟩
  | .outOfFile =>
      if (parseHeader f x z).offset * 4096 + 5 < f.size then
        ⟨some (beVal (readAt f ((parseHeader f x z).offset * 4096) 4)),
         some ((readAt f ((parseHeader f x z).offset * 4096 + 4) 1).getD 0 0),
         .outOfFile⟩
      else ⟨none, none, .outOfFile⟩
  | s => ⟨none, none, s⟩

/-- The distinct failure outcomes of `get_chunk`: `inconceived` models the
`InconceivedChunk` `LookupError`; the rest model the `RegionFileFormatError`
subclasses raised there (`chunkDataUnknown` is the `ChunkDataError` with the
"unknown chunk compression/format" message, `chunkDataCorrupt` the one
wrapping a decompression or NBT parse failure). -/
inductive ChunkReadError where
  | inconceived
  | regionHeaderError
  | chunkHeaderError
  | chunkDataUnknown
  | chunkDataCorrupt
deriving DecidableEq

/-- Whether the error is a `RegionFileFormatError` in the Python class
hierarchy (`InconceivedChunk` is a `LookupError`, not a format error). -/
def isFormatError : ChunkReadError → Bool
  | .inconceived => false
  | _ => true

/-- The `try`/`except` tail of `get_chunk` (lines 334-350): given the outcome
of the selected decompression, parse with the tree codec; any decompression
or parse failure is collapsed into the single "corrupt chunk data" error. -/
def codecResult {α : Type} (nbtP : List Nat → Option α)
    (dec : Option (List Nat)) : Except ChunkReadError α :=
  match dec with
  | none => .error .chunkDataCorrupt
  | some bs =>
    match nbtP bs with
    | none => .error .chunkDataCorrupt
    | some nbt => .ok nbt

/-- `get_chunk(x, z)` with the collaborators as parameters: `gzD`/`zlD`
decompress gzip/zlib framing (`none` on any decompression failure) and
`nbtP` parses decompressed bytes into an NBT tree (`none` on parse failure).
The file is threaded through to exhibit that the operation performs only
reads: every branch returns the file it was given. -/
def get_chunk {α : Type} (gzD zlD : List Nat → Option (List Nat))
    (nbtP : List Nat → Option α) (f : FFile) (x z : Nat) :
    Except ChunkReadError α × FFile :=
  match (parseHeader f x z).status with
  | .notCreated => (.error .inconceived, f)
  | .inHeader => (.error .regionHeaderError, f)
  | .mismatchedLengths => (.error .regionHeaderError, f)
  | .outOfFile => (.error .regionHeaderError, f)
  | .ok =>
      if (parseChunkHeader f x z).status = .zeroLength then
        (.error .chunkHeaderError, f)
      else
        -- a fine status of mismatchedLengths falls through: read anyway
        match (parseChunkHeader f x z).length with
        | none => (.error .chunkHeaderError, f)
        | some length =>
          if length ≤ 1 then (.error .chunkHeaderError, f)
          else if (parseChunkHeader f x z).compression.getD 0 > 2 then
            (.error .chunkDataUnknown, f)
          else
            (codecResult nbtP
              (if (parseChunkHeader f x z).compression.getD 0 = 1 then
                 gzD (readAt f ((parseHeader f x z).offset * 4096 + 5) (length - 1))
               else if (parseChunkHeader f x z).compression.getD 0 = 2 then
                 zlD (readAt f ((parseHeader f x z).offset * 4096 + 5) (length - 1))
               else some (readAt f ((parseHeader f x z).offset * 4096 + 5) (length - 1))),
             f)
  | _ => (.error .regionHeaderError, f)

/-- `get_timestamp(x, z)`: the stored timestamp, verbatim, no existence
check.  Only reads are performed, so the file is returned unchanged. -/
def get_timestamp (f : FFile) (x z : Nat) : Nat × FFile :=
  ((parseHeader f x z).timestamp, f)

/-- `get_chunk_coords()`: the `(x, z)` coordinates (with their chunk-header
metadata) of every slot whose header offset is positive, in the `x`-outer,
`z`-inner loop order of the source. -/
def get_chunk_coords (f : FFile) :
    List (Nat × Nat × ChunkHeader) × FFile :=
  (((List.range 32).map fun x =>
      (List.range 32).filterMap fun z =>
        if 0 < (parseHeader f x z).offset then some (x, z, parseChunkHeader f x z)
        else none).flatten, f)

/-- `chunk_count()`: the number of defined chunks, corrupt ones included. -/
def chunk_count (f : FFile) : Nat × FFile :=
  ((get_chunk_coords f).1.length, f)

/-- The loop of `iter_chunks`: read each listed coordinate, collecting
successes, skipping coordinates that raise a `RegionFileFormatError` and
propagating any other error. -/
def iterChunksGo {α : Type} (gzD zlD : List Nat → Option (List Nat))
    (nbtP : List Nat → Option α) (f : FFile) :
    List (Nat × Nat × ChunkHeader) → Except ChunkReadError (List α)
  | [] => .ok []
  | c :: rest =>
      match (get_chunk gzD zlD nbtP f c.1 c.2.1).1 with
      | .ok t =>
          match iterChunksGo gzD zlD nbtP f rest with
          | .ok ts => .ok (t :: ts)
          | .error e => .error e
      | .error e =>
          if isFormatError e then iterChunksGo gzD zlD nbtP f rest
          else .error e

/-- `iter_chunks()`: the successfully decoded chunks of the region, in
coordinate order, with format errors silently skipped. -/
def iter_chunks {α : Type} (gzD zlD : List Nat → Option (List Nat))
    (nbtP : List Nat → Option α) (f : FFile) :
    Except ChunkReadError (List α) × FFile :=
  (iterChunksGo gzD zlD nbtP f (get_chunk_coords f).1, f)

/-- The `self.header` dict of all 1024 slots in insertion order
(`index` from 0 to 4092 by 4, coordinate `(index/4 % 32, index/4 / 32)`). -/
def headerList (f : FFile) : List HeaderEntry :=
  (List.range 1024).map fun i => parseHeader f (i % 32) (i / 32)

/-- Python comparison of the header tuples `(offset, length, timestamp,
status)`: lexicographic, with the status compared by its numeric value. -/
def entryLE (a b : HeaderEntry) : Bool :=
  if a.offset ≠ b.offset then decide (a.offset < b.offset)
  else if a.length ≠ b.length then decide (a.length < b.length)
  else if a.timestamp ≠ b.timestamp then decide (a.timestamp < b.timestamp)
  else decide (statusCode a.status ≤ statusCode b.status)

/-- Insert an entry into a list sorted by `entryLE`. -/
def insortEntry (e : HeaderEntry) : List HeaderEntry → List HeaderEntry
  | [] => [e]
  | a :: rest => if entryLE e a then e :: a :: rest else a :: insortEntry e rest

/-- `sorted(...)` over header tuples.  `entryLE` is a total order on the
tuple values, so any correct sort returns the same list as Python's. -/
def sortEntries : List HeaderEntry → List HeaderEntry
  | [] => []
  | a :: rest => insortEntry a (sortEntries rest)

/-- The free-space scan of `write_chunk` (lines 389-404): walk consecutive
pairs of (sentinel-extended) sorted entries; take the first gap holding
`nsectors` sectors whose start does not fall in the two header sectors.
All call sites pass `nsectors ≥ 1`, so the `Nat` truncation of a negative
free space (overlapping entries) agrees with Python's comparison. -/
def scanGaps (nsectors : Nat) : List HeaderEntry → Option Nat
  | a :: b :: rest =>
      if nsectors ≤ b.offset - (a.offset + a.length) ∧ 2 ≤ a.offset + a.length
      then some (a.offset + a.length)
      else scanGaps nsectors (b :: rest)
  | _ => none

/-- The ways the write path can fail: `indexError` models the uncaught
`IndexError` from `l[0]` when the free-space list is empty, `structError`
the uncaught `struct.error` from `pack` on an out-of-range field. -/
inductive WriteError where
  | indexError
  | structError
deriving DecidableEq

/-- The placement decision of `write_chunk` (lines 366-421): reuse the
current allocation when the slot is Ok/NotCreated and the data fits,
otherwise first-fit over the gaps between sorted allocations (with a
sentinel at sector 2 when the first allocation starts later), otherwise —
and always, for a slot with a corrupt status — append at
`bytes_to_sector(size - 1) + 1` with end padding requested.  Returns the
chosen `(sector, pad_end)` pair. -/
def findPlacement (f : FFile) (x z : Nat) (nsectors : Nat) :
    Except WriteError (Nat × Bool) :=
  if (parseHeader f x z).status = .notCreated ∨ (parseHeader f x z).status = .ok then
    if nsectors ≤ (parseHeader f x z).length then .ok ((parseHeader f x z).offset, false)
    else
      match sortEntries ((headerList f).filter fun e => e.offset ≠ 0) with
      | [] => .error .indexError
      | a :: rest =>
        -- the sentinel tuple is (2, 0, 0, 0); only offset and length are read
        match scanGaps nsectors
            (if a.offset ≠ 2 then ⟨2, 0, 0, .ok⟩ :: a :: rest
             else a :: rest) with
        | some s => .ok (s, false)
        | none => .ok (bytes_to_sector (f.size - 1) + 1, true)
  else .ok (bytes_to_sector (f.size - 1) + 1, true)

/-- The record-block write of `write_chunk` (lines 424-428): at the chosen
sector, the 4-byte big-endian total length (`compressedSize + 1`), the codec
id byte (always 2), then the compressed bytes. -/
def afterData (f : FFile) (sector : Nat) (data : List Nat) : FFile :=
  writeAt f (sector * 4096) (be4 (data.length + 1) ++ [2] ++ data)

/-- The record-block write followed by the end padding (lines 429-433): when
`pad_end` was requested, a single zero byte at the last position of the
reserved region. -/
def afterPad (f : FFile) (sector nsectors : Nat) (data : List Nat)
    (padEnd : Bool) : FFile :=
  if padEnd then
    writeAt (afterData f sector data) ((sector + nsectors) * 4096 - 1) [0]
  else afterData f sector data

/-- The header-table slot update of `write_chunk` (lines 436-437):
`pack(">IB", sector, nsectors)[1:]`, i.e. the low 3 bytes of the sector
followed by the sector count, at byte `4*(x + z*32)`. -/
def afterSlot (f : FFile) (x z sector nsectors : Nat) : FFile :=
  writeAt f (4 * (x + z * 32)) ((be4 sector).drop 1 ++ [nsectors])

/-- `write_chunk(x, z, nbt)` with the serializer `nbtW` and the deflate
compressor `zlibC` as parameters and `now` the current Unix time: serialize
and compress, choose a placement, write the 5-byte chunk header and data,
pad the tail with a single zero byte when appending, then update the
header-table slot and its timestamp.  Returns the error raised (if any)
together with the file state at that point: `indexError` leaves the file
untouched, `structError` occurs after the data bytes are written but before
the header-table slot (or, for an oversized timestamp, after it). -/
def write_chunk {α : Type} (nbtW : α → List Nat) (zlibC : List Nat → List Nat)
    (now : Nat) (f : FFile) (x z : Nat) (nbt : α) :
    Option WriteError × FFile :=
  match findPlacement f x z (bytes_to_sector ((zlibC (nbtW nbt)).length + 5)) with
  | .error e => (some e, f)
  | .ok (sector, padEnd) =>
    if 4294967296 ≤ (zlibC (nbtW nbt)).length + 1 then (some .structError, f)
    else if 256 ≤ bytes_to_sector ((zlibC (nbtW nbt)).length + 5) ∨
        4294967296 ≤ sector then
      (some .structError,
       afterPad f sector (bytes_to_sector ((zlibC (nbtW nbt)).length + 5))
         (zlibC (nbtW nbt)) padEnd)
    else if 4294967296 ≤ now then
      (some .structError,
       afterSlot
         (afterPad f sector (bytes_to_sector ((zlibC (nbtW nbt)).length + 5))
           (zlibC (nbtW nbt)) padEnd)
         x z sector (bytes_to_sector ((zlibC (nbtW nbt)).length + 5)))
    else
      (none,
       writeAt
         (afterSlot
           (afterPad f sector (bytes_to_sector ((zlibC (nbtW nbt)).length + 5))
             (zlibC (nbtW nbt)) padEnd)
           x z sector (bytes_to_sector ((zlibC (nbtW nbt)).length + 5)))
         (4096 + 4 * (x + z * 32)) (be4 now))

/-- `unlink_chunk(x, z)`: zero the slot's 4-byte offset/length field and its
4-byte timestamp field in place; nothing else is touched. -/
def unlink_chunk (f : FFile) (x z : Nat) : FFile :=
  writeAt (writeAt f (4 * (x + z * 32)) [0, 0, 0, 0])
    (4096 + 4 * (x + z * 32)) [0, 0, 0, 0]

/-! Concrete fixtures used by witnesses and counterexamples. -/

/-- A 0-byte backing file: a valid, fully-NotCreated container. -/
def emptyFile : FFile := ⟨0, fun _ => 0⟩

/-- A 1000-byte file of zeros: nonzero but below the 8192-byte header. -/
def shortFile : FFile := ⟨1000, fun _ => 0⟩

/-- An 8192-byte file of `1` bytes with a zeroed header region is not needed;
this fixture is an 8192-byte file whose slot `(0,0)` holds offset 5,
length 1 — an allocation reaching past the end of the file (OutOfFile). -/
def wf9 : FFile := ⟨8192, fun i => if i = 2 then 5 else if i = 3 then 1 else 0⟩

/-- A file of 12289 bytes (8192-byte header, one 4096-byte record sector,
one extra byte) whose slot `(0,0)` holds offset 2, length 1. -/
def cf6 : FFile := ⟨12289, fun i => if i = 2 then 2 else if i = 3 then 1 else 0⟩

/-- A 12288-byte file whose slot `(0,0)` holds offset 2, length 1, and whose
record at sector 2 has stored length 3, codec id 0, and data bytes 7, 8. -/
def cf5 : FFile := ⟨12288, fun i =>
  if i = 2 then 2 else if i = 3 then 1
  else if i = 8195 then 3 else if i = 8197 then 7 else if i = 8198 then 8
  else 0⟩

/-- A 12288-byte file whose slot `(0,0)` holds offset 2, length 1, and whose
record at sector 2 has stored length 4093 (more than the one reserved
sector) and codec id 2. -/
def cf7 : FFile := ⟨12288, fun i =>
  if i = 2 then 2 else if i = 3 then 1
  else if i = 8194 then 15 else if i = 8195 then 253 else if i = 8196 then 2
  else 0⟩

/-- A 12288-byte file whose slot `(0,0)` holds offset 2, length 1: one record
filling the single sector after the header, no free gap before it. -/
def cf1 : FFile := ⟨12288, fun i => if i = 2 then 2 else if i = 3 then 1 else 0⟩

/-- An 8192-byte file of `1` bytes (header present, arbitrary contents). -/
def onesFile : FFile := ⟨8192, fun _ => 1⟩

/-- A gzip decompressor stub that always fails (gzip framing unused). -/
def gzNone : List Nat → Option (List Nat) := fun _ => none

/-- A zlib decompressor stub accepting exactly the 4091-byte reads of `cf7`. -/
def zlD7 : List Nat → Option (List Nat) :=
  fun b => if b.length = 4091 then some [1] else none

/-- A tree-codec parser stub accepting exactly the bytes `[1]`. -/
def np7 : List Nat → Option Unit := fun b => if b = [1] then some () else none

/-- A tree-codec parser stub accepting exactly the bytes `[7, 8]`. -/
def np5 : List Nat → Option Unit := fun b => if b = [7, 8] then some () else none

/-- A serializer stub: every payload serializes to the empty byte string. -/
def nbtW0 : Unit → List Nat := fun _ => []

/-- The identity compressor stub. -/
def idC : List Nat → List Nat := fun b => b

/-- A compressor stub whose output is 4091 bytes, each nonzero, so that the
compressed record plus its 5-byte chunk header fills one sector exactly. -/
def zlC1 : List Nat → List Nat := fun _ => List.replicate 4091 7

/-- A compressor stub whose output needs 256 sectors
(`1044476 + 5 = 255 * 4096 + 1` bytes). -/
def zlC9 : List Nat → List Nat := fun _ => List.replicate 1044476 0

/-! Helper lemmas about the file primitives and the allocator. -/

lemma writeAt_size (f : FFile) (pos : Nat) (data : List Nat) :
    (writeAt f pos data).size = max f.size (pos + data.length) := rfl

lemma writeAt_byte_in (f : FFile) (pos : Nat) (data : List Nat) (i : Nat)
    (h1 : pos ≤ i) (h2 : i < pos + data.length) :
    (writeAt f pos data).byte i = data.getD (i - pos) 0 := by
  show (if pos ≤ i ∧ i < pos + data.length then _ else _) = _
  rw [if_pos ⟨h1, h2⟩]

lemma writeAt_byte_out (f : FFile) (pos : Nat) (data : List Nat) (i : Nat)
    (h1 : ¬(pos ≤ i ∧ i < pos + data.length)) (h2 : i < f.size) :
    (writeAt f pos data).byte i = f.byte i := by
  show (if pos ≤ i ∧ i < pos + data.length then _ else _) = _
  rw [if_neg h1, if_pos h2]

/-- Reading a region that lies entirely below a write, and inside the
original file, is unaffected by the write. -/
lemma readAt_writeAt_disjoint (f : FFile) (pos : Nat) (data : List Nat)
    (p n : Nat) (hle : p + n ≤ pos) (hsz : p + n ≤ f.size) :
    readAt (writeAt f pos data) p n = readAt f p n := by
  unfold readAt
  have ha : min n ((writeAt f pos data).size - p) = n := by
    rw [writeAt_size]; omega
  have hb : min n (f.size - p) = n := by omega
  rw [ha, hb]
  apply List.map_congr_left
  intro i hi
  rw [List.mem_range] at hi
  rw [writeAt_byte_out f pos data (p + i) (by omega) (by omega)]

/-- Reading back exactly a written region returns the written data
(normalised to bytes); the write itself extended the file far enough. -/
lemma readAt_writeAt_self (f : FFile) (pos : Nat) (data : List Nat) :
    readAt (writeAt f pos data) pos data.length =
      data.map (fun a => a % 256) := by
  unfold readAt
  have ha : min data.length ((writeAt f pos data).size - pos) = data.length := by
    rw [writeAt_size]; omega
  rw [ha]
  apply List.ext_getElem
  · simp
  · intro i h1 h2
    simp only [List.getElem_map, List.getElem_range]
    rw [writeAt_byte_in f pos data (pos + i) (by omega) (by simp at h2; omega)]
    have hi : i < data.length := by simp at h2; omega
    rw [Nat.add_sub_cancel_left, List.getD_eq_getElem data 0 hi]

lemma getD_map_mod (l : List Nat) (g : Nat → Nat) (i : Nat) :
    (l.map fun a => g a % 256).getD i 0 < 256 := by
  induction l generalizing i with
  | nil => simp [List.getD_nil]
  | cons a t ih =>
    cases i with
    | zero => simp only [List.map_cons, List.getD_cons_zero]; omega
    | succ j => simp only [List.map_cons, List.getD_cons_succ]; exact ih j

/-- The sector length of any parsed header entry comes from one byte. -/
lemma parseHeader_length_lt (f : FFile) (x z : Nat) :
    (parseHeader f x z).length < 256 := by
  unfold parseHeader
  split
  · norm_num
  split
  · norm_num
  unfold parseHeaderEntry readAt
  exact getD_map_mod _ _ 3

/-- Any sector returned by the free-space scan starts after the header. -/
lemma scanGaps_some_ge_two (n s : Nat) :
    ∀ l : List HeaderEntry, scanGaps n l = some s → 2 ≤ s := by
  intro l
  induction l with
  | nil => intro h; simp [scanGaps] at h
  | cons a t ih =>
    cases t with
    | nil => intro h; simp [scanGaps] at h
    | cons b r =>
      intro h
      unfold scanGaps at h
      split at h
      · rename_i hc
        cases h
        exact hc.2
      · exact ih h

lemma sortEntries_nil : sortEntries [] = [] := rfl

/-- In a file too small for a header every parsed slot is NotCreated. -/
lemma parseHeader_small (f : FFile) (x z : Nat) (h : f.size < 8192) :
    parseHeader f x z = ⟨0, 0, 0, .notCreated⟩ := by
  unfold parseHeader
  by_cases h0 : f.size = 0
  · rw [if_pos h0]
  · rw [if_neg h0, if_pos h]

/-- In a file too small for a header the free-space list is empty. -/
lemma headerList_filter_nil (f : FFile) (h : f.size < 8192) :
    (headerList f).filter (fun e => e.offset ≠ 0) = [] := by
  rw [List.filter_eq_nil_iff]
  intro a ha
  simp only [headerList, List.mem_map] at ha
  obtain ⟨i, _, rfl⟩ := ha
  rw [parseHeader_small f _ _ h]
  simp

/-- A placement with `pad_end` set comes from one of the two append branches:
the file holds a full header and the sector is `bytes_to_sector(size-1)+1`. -/
lemma findPlacement_pad (f : FFile) (x z n s : Nat)
    (h : findPlacement f x z n = .ok (s, true)) :
    8192 ≤ f.size ∧ s = bytes_to_sector (f.size - 1) + 1 := by
  by_cases hsz : f.size < 8192
  · exfalso
    unfold findPlacement at h
    rw [parseHeader_small f x z hsz, headerList_filter_nil f hsz,
      sortEntries_nil] at h
    split at h
    · split at h
      · simp at h
      · exact Except.noConfusion h
    · rename_i hcond
      simp at hcond
  · refine ⟨by omega, ?_⟩
    unfold findPlacement at h
    split at h
    · split at h
      · simp at h
      · split at h
        · exact Except.noConfusion h
        · split at h
          · simp at h
          · simp at h; omega
    · simp at h; omega

/-- Any successful placement of more than 255 sectors starts after the header
(sector at least 2) and the file holds a full header. -/
lemma findPlacement_ok_big (f : FFile) (x z n s : Nat) (b : Bool)
    (h : findPlacement f x z n = .ok (s, b)) (hn : 255 < n) :
    2 ≤ s ∧ 8192 ≤ f.size := by
  cases b with
  | true =>
    obtain ⟨h8, hs⟩ := findPlacement_pad f x z n s h
    refine ⟨?_, h8⟩
    subst hs
    unfold bytes_to_sector
    split <;> omega
  | false =>
    unfold findPlacement at h
    split at h
    · split at h
      · rename_i hfit
        have := parseHeader_length_lt f x z
        omega
      · split at h
        · simp at h
        · rename_i l0 a rest heq
          have h8 : 8192 ≤ f.size := by
            by_contra hlt
            rw [headerList_filter_nil f (by omega), sortEntries_nil] at heq
            cases heq
          split at h
          · rename_i s2 hscan
            have h2 := scanGaps_some_ge_two n s2 _ hscan
            simp at h
            omega
          · simp at h
    · simp at h

/-- Evaluation of `parse_chunk_headers` at a slot whose coarse status is Ok. -/
lemma parseChunkHeader_ok (f : FFile) (x z off slen ts : Nat)
    (hh : parseHeader f x z = ⟨off, slen, ts, .ok⟩) :
    parseChunkHeader f x z =
      ⟨some (beVal (readAt f (off * 4096) 4)),
       some ((readAt f (off * 4096 + 4) 1).getD 0 0),
       if beVal (readAt f (off * 4096) 4) = 0 then .zeroLength
       else if beVal (readAt f (off * 4096) 4) + 4 > slen * 4096 then
         .mismatchedLengths
       else .ok⟩ := by
  unfold parseChunkHeader
  rw [hh]

/-- Evaluation of `get_chunk` past the header checks: with coarse status Ok
and a stored length above 1, the outcome is decided by the codec dispatch. -/
lemma get_chunk_fst_ok {α : Type} (gzD zlD : List Nat → Option (List Nat))
    (nbtP : List Nat → Option α) (f : FFile) (x z off slen ts L c : Nat)
    (hh : parseHeader f x z = ⟨off, slen, ts, .ok⟩)
    (hL : beVal (readAt f (off * 4096) 4) = L)
    (hc : (readAt f (off * 4096 + 4) 1).getD 0 0 = c)
    (h1 : 1 < L) :
    (get_chunk gzD zlD nbtP f x z).1 =
      if 2 < c then .error .chunkDataUnknown
      else codecResult nbtP
        (if c = 1 then gzD (readAt f (off * 4096 + 5) (L - 1))
         else if c = 2 then zlD (readAt f (off * 4096 + 5) (L - 1))
         else some (readAt f (off * 4096 + 5) (L - 1))) := by
  have hch := parseChunkHeader_ok f x z off slen ts hh
  rw [hL, hc, if_neg (by omega : ¬L = 0)] at hch
  unfold get_chunk
  rw [hh]
  dsimp only
  rw [hch]
  dsimp only
  have hstatus :
      (if L + 4 > slen * 4096 then ChunkStatus.mismatchedLengths
       else ChunkStatus.ok) ≠ ChunkStatus.zeroLength := by
    split <;> simp
  rw [if_neg hstatus, if_neg (by omega : ¬L ≤ 1)]
  simp only [Option.getD_some]
  by_cases hgt : 2 < c
  · simp [gt_iff_lt, hgt]
  · simp [gt_iff_lt, hgt]

/-- `codecResult` never produces the "unknown codec" error. -/
lemma codecResult_ne_unknown {α : Type} (nbtP : List Nat → Option α)
    (dec : Option (List Nat)) :
    codecResult nbtP dec ≠ .error .chunkDataUnknown := by
  unfold codecResult
  rcases dec with _ | bs
  · simp
  · dsimp only
    rcases hp : nbtP bs with _ | t <;> simp

/-- Every branch of `get_chunk` performs only reads and hands the file back. -/
lemma get_chunk_snd {α : Type} (gzD zlD : List Nat → Option (List Nat))
    (nbtP : List Nat → Option α) (f : FFile) (x z : Nat) :
    (get_chunk gzD zlD nbtP f x z).2 = f := by
  unfold get_chunk
  cases hs : (parseHeader f x z).status <;> (dsimp only; try rfl)
  repeat' split <;> try rfl

lemma getD_zeros4 (j : Nat) : [0, 0, 0, 0].getD j 0 = 0 := by
  rcases j with _ | _ | _ | _ | j <;>
    simp [List.getD_cons_zero, List.getD_cons_succ, List.getD_nil]

lemma unlink_size (f : FFile) (x z : Nat) (hx : x < 32) (hz : z < 32)
    (h8 : 8192 ≤ f.size) : (unlink_chunk f x z).size = f.size := by
  unfold unlink_chunk
  rw [writeAt_size, writeAt_size]
  simp only [List.length_cons, List.length_nil]
  omega

/-- After `unlink_chunk`, the slot of `(x, z)` parses as `(0,0,0,NotCreated)`. -/
lemma parseHeader_unlink (f : FFile) (x z : Nat) (hx : x < 32) (hz : z < 32)
    (h8 : 8192 ≤ f.size) :
    parseHeader (unlink_chunk f x z) x z = ⟨0, 0, 0, .notCreated⟩ := by
  have hsz := unlink_size f x z hx hz h8
  have hread1 : readAt (unlink_chunk f x z) (4 * (x + z * 32)) 4 = [0, 0, 0, 0] := by
    unfold unlink_chunk
    rw [readAt_writeAt_disjoint _ _ _ _ 4 (by omega)
      (by rw [writeAt_size]; simp only [List.length_cons, List.length_nil]; omega)]
    have h := readAt_writeAt_self f (4 * (x + z * 32)) [0, 0, 0, 0]
    simpa using h
  have hread2 : readAt (unlink_chunk f x z) (4 * (x + z * 32) + 4096) 4
      = [0, 0, 0, 0] := by
    unfold unlink_chunk
    rw [Nat.add_comm (4 * (x + z * 32)) 4096]
    have h := readAt_writeAt_self (writeAt f (4 * (x + z * 32)) [0, 0, 0, 0])
      (4096 + 4 * (x + z * 32)) [0, 0, 0, 0]
    simpa using h
  unfold parseHeader
  rw [if_neg (by omega), if_neg (by omega)]
  unfold parseHeaderEntry
  rw [hread1, hread2]
  rfl

/-- A slot parsing as NotCreated reads as the lookup error `InconceivedChunk`. -/
lemma get_chunk_fst_nc {α : Type} (gzD zlD : List Nat → Option (List Nat))
    (nbtP : List Nat → Option α) (f : FFile) (x z : Nat)
    (hs : (parseHeader f x z).status = .notCreated) :
    (get_chunk gzD zlD nbtP f x z).1 = .error .inconceived := by
  unfold get_chunk
  rw [hs]

lemma bts_mul_ge (m : Nat) : m ≤ bytes_to_sector m * 4096 := by
  unfold bytes_to_sector
  split <;> omega

lemma bts_pos (m : Nat) (h : 0 < m) : 0 < bytes_to_sector m := by
  unfold bytes_to_sector
  split <;> omega

/-- The successful tail of `write_chunk`: when a placement is found and all
three packed fields are in range, no error is raised and the file goes
through the record write, the optional padding, the header-slot update and
the timestamp update, in that order. -/
lemma write_chunk_success {α : Type} (nbtW : α → List Nat)
    (zlibC : List Nat → List Nat) (now : Nat) (f : FFile) (x z : Nat) (p : α)
    (s : Nat) (b : Bool)
    (hpl : findPlacement f x z (bytes_to_sector ((zlibC (nbtW p)).length + 5))
      = .ok (s, b))
    (hns : bytes_to_sector ((zlibC (nbtW p)).length + 5) ≤ 255)
    (hsec : s < 4294967296) (hnow : now < 4294967296)
    (hlen : (zlibC (nbtW p)).length + 1 < 4294967296) :
    write_chunk nbtW zlibC now f x z p =
      (none,
       writeAt
         (afterSlot
           (afterPad f s (bytes_to_sector ((zlibC (nbtW p)).length + 5))
             (zlibC (nbtW p)) b)
           x z s (bytes_to_sector ((zlibC (nbtW p)).length + 5)))
         (4096 + 4 * (x + z * 32)) (be4 now)) := by
  unfold write_chunk
  rw [hpl]
  dsimp only
  rw [if_neg (by omega), if_neg (by omega), if_neg (by omega)]

/-! The claims. -/

/-- C2: for every header-table entry `(offset, length)` and every file size
of at least 8192 bytes, the coarse status is computed by a first-match-wins
cascade: offset and length both zero gives NotCreated; length zero (offset
nonzero) gives MismatchedLengths; offset nonzero below 2 gives InHeader;
`(offset+length)*4096 > fileSize` gives OutOfFile; otherwise Ok.  In
particular, an entry with offset 1 and length 0 is MismatchedLengths, not
InHeader. -/
theorem c2_status_cascade_first_match_wins (offset length size : Nat)
    (h : 8192 ≤ size) :
    (offset = 0 ∧ length = 0 →
      headerStatus offset length size = .notCreated) ∧
    (offset ≠ 0 ∧ length = 0 →
      headerStatus offset length size = .mismatchedLengths) ∧
    (length ≠ 0 ∧ offset ≠ 0 ∧ offset < 2 →
      headerStatus offset length size = .inHeader) ∧
    (length ≠ 0 ∧ ¬(offset < 2 ∧ offset ≠ 0) ∧
        size < (offset + length) * 4096 →
      headerStatus offset length size = .outOfFile) ∧
    (length ≠ 0 ∧ ¬(offset < 2 ∧ offset ≠ 0) ∧
        (offset + length) * 4096 ≤ size →
      headerStatus offset length size = .ok) ∧
    (offset = 1 ∧ length = 0 →
      headerStatus offset length size = .mismatchedLengths) := by
  refine ⟨?_, ?_, ?_, ?_, ?_, ?_⟩ <;>
    (intro h1; unfold headerStatus; split_ifs <;> first | rfl | omega)

/-- Witness for C2 at the instance the claim highlights: offset 1, length 0
(and file size 8192) classifies as MismatchedLengths. -/
theorem c2_status_cascade_first_match_wins_witness :
    8192 ≤ 8192 ∧ headerStatus 1 0 8192 = .mismatchedLengths :=
  ⟨le_refl 8192,
   (c2_status_cascade_first_match_wins 1 0 8192 (le_refl 8192)).2.1
     ⟨one_ne_zero, rfl⟩⟩

/-- C3: a backing file of nonzero size below 8192 bytes parses to a container
whose every slot is NotCreated, with the `NoRegionHeader` signal raised; the
container remains usable in that empty form: it lists no chunks, and reading
any coordinate fails with the non-format lookup error `InconceivedChunk`. -/
theorem c3_short_file_warning_grade {α : Type}
    (gzD zlD : List Nat → Option (List Nat)) (nbtP : List Nat → Option α)
    (f : FFile) (x z : Nat) (h0 : 0 < f.size) (h8 : f.size < 8192) :
    parse_header_err f = some .noRegionHeader ∧
    parseHeader f x z = ⟨0, 0, 0, .notCreated⟩ ∧
    (get_chunk_coords f).1 = [] ∧
    (get_chunk gzD zlD nbtP f x z).1 = .error .inconceived ∧
    isFormatError .inconceived = false := by
  refine ⟨?_, parseHeader_small f x z h8, ?_, ?_, rfl⟩
  · unfold parse_header_err
    rw [if_neg (by omega), if_pos h8]
  · have hph : ∀ a b : Nat, parseHeader f a b = ⟨0, 0, 0, .notCreated⟩ :=
      fun a b => parseHeader_small f a b h8
    simp [get_chunk_coords, hph]
  · unfold get_chunk
    rw [parseHeader_small f x z h8]

/-- Witness for C3: a 1000-byte file of zeros. -/
theorem c3_short_file_warning_grade_witness :
    0 < shortFile.size ∧
    (parse_header_err shortFile = some .noRegionHeader ∧
     (get_chunk gzNone zlD7 np7 shortFile 0 0).1 = .error .inconceived) :=
  ⟨by decide,
   (c3_short_file_warning_grade gzNone zlD7 np7 shortFile 0 0
      (by decide) (by decide)).1,
   (c3_short_file_warning_grade gzNone zlD7 np7 shortFile 0 0
      (by decide) (by decide)).2.2.2.1⟩

set_option maxRecDepth 8000 in
/-- C4 (code bug): writing any payload to an empty (0-byte) container does
not succeed with slot offset 2 as the spec's scenario requires; the
free-space list `l` is empty, `l[0]` raises an uncaught `IndexError`, and
the write aborts with the file untouched. -/
theorem c4_write_to_empty_container_index_error :
    (write_chunk (fun _ : Unit => []) (fun b => b ++ [1]) 0 emptyFile 5 5 ()).1
        = some .indexError ∧
    (write_chunk (fun _ : Unit => []) (fun b => b ++ [1]) 0 emptyFile 5 5 ()).2
        = emptyFile := by
  have h : findPlacement emptyFile 5 5
      (bytes_to_sector (((fun b => b ++ [1]) ((fun _ : Unit => []) ())).length + 5))
      = .error .indexError := by decide
  constructor
  · unfold write_chunk
    rw [h]
  · unfold write_chunk
    rw [h]

set_option maxRecDepth 8000 in
/-- C5 counterexample: a stored record with codec id 0 is not rejected with
the "unknown codec" error — `get_chunk` decompresses nothing and hands the
raw bytes to the tree codec, here successfully. -/
theorem c5_codec_zero_read_succeeds :
    (get_chunk gzNone gzNone np5 cf5 0 0).1 = .ok () ∧
    (get_chunk gzNone gzNone np5 cf5 0 0).1 ≠ .error .chunkDataUnknown := by
  constructor
  · decide
  · decide

/-- C10: the read-only operations — reading a record, fetching a timestamp,
listing record coordinates, counting records, iterating decoded records —
return the backing file unchanged, whatever the container state. -/
theorem c10_read_operations_leave_file_unchanged {α : Type}
    (gzD zlD : List Nat → Option (List Nat)) (nbtP : List Nat → Option α)
    (f : FFile) (x z : Nat) :
    (get_chunk gzD zlD nbtP f x z).2 = f ∧
    (get_timestamp f x z).2 = f ∧
    (get_chunk_coords f).2 = f ∧
    (chunk_count f).2 = f ∧
    (iter_chunks gzD zlD nbtP f).2 = f :=
  ⟨get_chunk_snd gzD zlD nbtP f x z, rfl, rfl, rfl, rfl⟩

/-- C7: a slot with coarse status Ok whose stored 4-byte length exceeds the
table-reserved sectors (`L + 4 > slen*4096`) has fine status
MismatchedLengths, and reading it is non-fatal: `get_chunk` proceeds with the
stored length, reads `L - 1` bytes, and returns the decoded payload whenever
those bytes decompress (codec 2) and parse. -/
theorem c7_fine_mismatched_lengths_nonfatal {α : Type}
    (gzD zlD : List Nat → Option (List Nat)) (nbtP : List Nat → Option α)
    (f : FFile) (x z off slen ts L : Nat) (bs : List Nat) (t : α)
    (hh : parseHeader f x z = ⟨off, slen, ts, .ok⟩)
    (hL : beVal (readAt f (off * 4096) 4) = L)
    (hml : slen * 4096 < L + 4)
    (h1 : 1 < L)
    (hc : (readAt f (off * 4096 + 4) 1).getD 0 0 = 2)
    (hzl : zlD (readAt f (off * 4096 + 5) (L - 1)) = some bs)
    (hp : nbtP bs = some t) :
    parseChunkHeader f x z = ⟨some L, some 2, .mismatchedLengths⟩ ∧
    (get_chunk gzD zlD nbtP f x z).1 = .ok t := by
  constructor
  · have hch := parseChunkHeader_ok f x z off slen ts hh
    rw [hL, hc] at hch
    rw [hch, if_neg (by omega : ¬L = 0), if_pos (by omega : L + 4 > slen * 4096)]
  · rw [get_chunk_fst_ok gzD zlD nbtP f x z off slen ts L 2 hh hL hc h1]
    rw [if_neg (by norm_num : ¬(2:Nat) < 2),
      if_neg (by norm_num : ¬(2:Nat) = 1), if_pos rfl, hzl]
    simp [codecResult, hp]

/-- Witness for C7 at `cf7`: stored length 4093 against one reserved sector;
the (short) 4091-byte read decompresses and parses, and the read succeeds. -/
theorem c7_fine_mismatched_lengths_nonfatal_witness :
    1 * 4096 < 4093 + 4 ∧
    (parseChunkHeader cf7 0 0 = ⟨some 4093, some 2, .mismatchedLengths⟩ ∧
     (get_chunk gzNone zlD7 np7 cf7 0 0).1 = .ok ()) :=
  ⟨by norm_num,
   c7_fine_mismatched_lengths_nonfatal gzNone zlD7 np7 cf7 0 0 2 1 0 4093 [1] ()
     (by decide) (by decide) (by norm_num) (by norm_num) (by decide)
     (by simp [zlD7, readAt, cf7]) (by decide)⟩

/-- C5 (amended): for a readable record (coarse Ok, stored length above 1),
the "unknown codec" failure occurs exactly for codec ids above 2; codec 1 is
decompressed as gzip, codec 2 as zlib, and codec 0 is not rejected — the raw
bytes are handed to the tree codec undecompressed. -/
theorem c5_amended_codec_dispatch {α : Type}
    (gzD zlD : List Nat → Option (List Nat)) (nbtP : List Nat → Option α)
    (f : FFile) (x z off slen ts L c : Nat)
    (hh : parseHeader f x z = ⟨off, slen, ts, .ok⟩)
    (hL : beVal (readAt f (off * 4096) 4) = L)
    (hc : (readAt f (off * 4096 + 4) 1).getD 0 0 = c)
    (h1 : 1 < L) :
    ((get_chunk gzD zlD nbtP f x z).1 = .error .chunkDataUnknown ↔ 2 < c) ∧
    (c = 1 → (get_chunk gzD zlD nbtP f x z).1 =
      codecResult nbtP (gzD (readAt f (off * 4096 + 5) (L - 1)))) ∧
    (c = 2 → (get_chunk gzD zlD nbtP f x z).1 =
      codecResult nbtP (zlD (readAt f (off * 4096 + 5) (L - 1)))) ∧
    (c = 0 → (get_chunk gzD zlD nbtP f x z).1 =
      codecResult nbtP (some (readAt f (off * 4096 + 5) (L - 1)))) := by
  rw [get_chunk_fst_ok gzD zlD nbtP f x z off slen ts L c hh hL hc h1]
  refine ⟨⟨?_, ?_⟩, ?_, ?_, ?_⟩
  · intro hres
    by_contra hgt
    rw [if_neg hgt] at hres
    exact codecResult_ne_unknown _ _ hres
  · intro hgt
    rw [if_pos hgt]
  · rintro rfl
    rw [if_neg (by norm_num), if_pos rfl]
  · rintro rfl
    rw [if_neg (by norm_num), if_neg (by norm_num), if_pos rfl]
  · rintro rfl
    rw [if_neg (by norm_num), if_neg (by norm_num), if_neg (by norm_num)]

set_option maxRecDepth 8000 in
/-- Witness for the amended C5 at `cf5` (codec id 0, stored length 3): the
read hands the two raw data bytes to the tree codec. -/
theorem c5_amended_codec_dispatch_witness :
    1 < 3 ∧
    (get_chunk gzNone gzNone np5 cf5 0 0).1 =
      codecResult np5 (some (readAt cf5 (2 * 4096 + 5) (3 - 1))) :=
  ⟨by norm_num,
   (c5_amended_codec_dispatch gzNone gzNone np5 cf5 0 0 2 1 0 3 0
     (by decide) (by decide) (by decide) (by norm_num)).2.2.2 rfl⟩

/-- C8: on a container with a full header, deleting a record writes zeros
over exactly the slot's 4-byte offset/length field and its 4-byte timestamp
field: the file size and every other byte — the record's data included — are
unchanged, and a subsequent read of the coordinate fails with the
`InconceivedChunk` lookup error, which is not a format error. -/
theorem c8_unlink_frame_and_not_found {α : Type}
    (gzD zlD : List Nat → Option (List Nat)) (nbtP : List Nat → Option α)
    (f : FFile) (x z : Nat) (hx : x < 32) (hz : z < 32) (h8 : 8192 ≤ f.size) :
    (unlink_chunk f x z).size = f.size ∧
    (∀ i, i < f.size →
      ¬(4 * (x + z * 32) ≤ i ∧ i < 4 * (x + z * 32) + 4) →
      ¬(4096 + 4 * (x + z * 32) ≤ i ∧ i < 4096 + 4 * (x + z * 32) + 4) →
      (unlink_chunk f x z).byte i = f.byte i) ∧
    (∀ i, 4 * (x + z * 32) ≤ i → i < 4 * (x + z * 32) + 4 →
      (unlink_chunk f x z).byte i = 0) ∧
    (∀ i, 4096 + 4 * (x + z * 32) ≤ i → i < 4096 + 4 * (x + z * 32) + 4 →
      (unlink_chunk f x z).byte i = 0) ∧
    parse_header_err (unlink_chunk f x z) = none ∧
    (get_chunk gzD zlD nbtP (unlink_chunk f x z) x z).1 = .error .inconceived ∧
    isFormatError .inconceived = false := by
  have hsz := unlink_size f x z hx hz h8
  refine ⟨hsz, ?_, ?_, ?_, ?_, ?_, rfl⟩
  · intro i hi h1 h2
    unfold unlink_chunk
    rw [writeAt_byte_out _ _ _ i (by simpa using h2)
        (by rw [writeAt_size]; omega),
      writeAt_byte_out _ _ _ i (by simpa using h1) hi]
  · intro i h1 h2
    unfold unlink_chunk
    rw [writeAt_byte_out _ _ _ i (by simp; omega)
        (by rw [writeAt_size]; simp only [List.length_cons, List.length_nil]; omega),
      writeAt_byte_in _ _ _ i h1 (by simpa using h2), getD_zeros4]
  · intro i h1 h2
    unfold unlink_chunk
    rw [writeAt_byte_in _ _ _ i h1 (by simpa using h2), getD_zeros4]
  · unfold parse_header_err
    rw [if_neg (by omega), if_neg (by omega)]
  · exact get_chunk_fst_nc gzD zlD nbtP _ x z
      (by rw [parseHeader_unlink f x z hx hz h8])

/-- Witness for C8 at an 8192-byte file of ones, coordinate `(0, 0)`. -/
theorem c8_unlink_frame_and_not_found_witness :
    8192 ≤ onesFile.size ∧
    ((unlink_chunk onesFile 0 0).size = onesFile.size ∧
     (get_chunk gzNone zlD7 np7 (unlink_chunk onesFile 0 0) 0 0).1 =
       .error .inconceived) :=
  ⟨by decide,
   (c8_unlink_frame_and_not_found gzNone zlD7 np7 onesFile 0 0
      (by decide) (by decide) (by decide)).1,
   (c8_unlink_frame_and_not_found gzNone zlD7 np7 onesFile 0 0
      (by decide) (by decide) (by decide)).2.2.2.2.2.1⟩

/-- C9: a record whose compressed form plus 5-byte header needs more than
255 sectors cannot have its sector count packed into the header table's
1-byte length field: once a placement is found, the write fails with the
`struct.error` range failure, and the coordinate's 4-byte header-table slot
still holds its old bytes (the record data, though, has been written). -/
theorem c9_oversized_record_struct_error {α : Type}
    (nbtW : α → List Nat) (zlibC : List Nat → List Nat) (now : Nat)
    (f : FFile) (x z : Nat) (p : α) (s : Nat) (b : Bool)
    (hx : x < 32) (hz : z < 32)
    (hn : 255 < bytes_to_sector ((zlibC (nbtW p)).length + 5))
    (hpl : findPlacement f x z (bytes_to_sector ((zlibC (nbtW p)).length + 5))
      = .ok (s, b)) :
    (write_chunk nbtW zlibC now f x z p).1 = some .structError ∧
    readAt (write_chunk nbtW zlibC now f x z p).2 (4 * (x + z * 32)) 4 =
      readAt f (4 * (x + z * 32)) 4 := by
  obtain ⟨hs2, h8⟩ := findPlacement_ok_big f x z _ s b hpl hn
  have hidx : 4 * (x + z * 32) + 4 ≤ 4096 := by omega
  unfold write_chunk
  rw [hpl]
  dsimp only
  split
  · exact ⟨rfl, rfl⟩
  · rw [if_pos (Or.inl (by omega))]
    refine ⟨rfl, ?_⟩
    unfold afterPad afterData
    cases b
    · rw [if_neg (by decide : ¬false = true)]
      rw [readAt_writeAt_disjoint _ _ _ _ 4 (by omega) (by omega)]
    · rw [if_pos rfl]
      rw [readAt_writeAt_disjoint _ _ _ _ 4 (by omega)
          (by rw [writeAt_size]; omega),
        readAt_writeAt_disjoint _ _ _ _ 4 (by omega) (by omega)]

/-- Witness for C9: at `wf9` (slot `(0,0)` is OutOfFile, so the allocator
appends at sector 3) a compressed record of 1044476 bytes needs 256 sectors;
the write fails with the range error and leaves slot `(0,0)` unchanged. -/
theorem c9_oversized_record_struct_error_witness :
    255 < bytes_to_sector ((zlC9 (nbtW0 ())).length + 5) ∧
    ((write_chunk nbtW0 zlC9 0 wf9 0 0 ()).1 = some .structError ∧
     readAt (write_chunk nbtW0 zlC9 0 wf9 0 0 ()).2 (4 * (0 + 0 * 32)) 4 =
       readAt wf9 (4 * (0 + 0 * 32)) 4) :=
  ⟨by rw [zlC9, List.length_replicate]; decide,
   c9_oversized_record_struct_error nbtW0 zlC9 0 wf9 0 0 () 3 true
     (by decide) (by decide)
     (by rw [zlC9, List.length_replicate]; decide)
     (by rw [zlC9, List.length_replicate]; decide)⟩

set_option maxRecDepth 8000 in
/-- C6 counterexample: in a 12289-byte container (one byte past a sector
boundary) whose only record fills sector 2, a one-sector write at the
NotCreated slot (1,0) finds no gap and appends — at sector
`bytes_to_sector(12288) + 1 = 4`, not at `bytes_to_sector(12289) + 1 = 5`
as the claim's `bytesToSectors(currentFileLength) + 1` formula requires. -/
theorem c6_append_formula_counterexample :
    findPlacement cf6 1 0 1 = .ok (4, true) ∧
    bytes_to_sector cf6.size + 1 = 5 ∧ (4 : Nat) ≠ 5 :=
  ⟨by decide, by decide, by decide⟩

/-- C6 (amended): when the free-space search finds no gap, the record is
appended at sector `bytes_to_sector(fileSize - 1) + 1` (one less than the
claim's formula when the size is 1 past a sector boundary), and after the
padded write the file size is exactly `(sector + nsectors) * 4096`, a
multiple of the sector size reaching through the reserved region. -/
theorem c6_amended_append_at_eof {α : Type}
    (nbtW : α → List Nat) (zlibC : List Nat → List Nat) (now : Nat)
    (f : FFile) (x z : Nat) (p : α) (s : Nat)
    (hx : x < 32) (hz : z < 32)
    (hpl : findPlacement f x z (bytes_to_sector ((zlibC (nbtW p)).length + 5))
      = .ok (s, true))
    (hns : bytes_to_sector ((zlibC (nbtW p)).length + 5) ≤ 255)
    (hsec : s < 4294967296)
    (hnow : now < 4294967296) :
    s = bytes_to_sector (f.size - 1) + 1 ∧
    (write_chunk nbtW zlibC now f x z p).1 = none ∧
    (write_chunk nbtW zlibC now f x z p).2.size =
      (s + bytes_to_sector ((zlibC (nbtW p)).length + 5)) * 4096 ∧
    (write_chunk nbtW zlibC now f x z p).2.size % 4096 = 0 := by
  obtain ⟨h8, hs⟩ := findPlacement_pad f x z _ s hpl
  have hlen5 := bts_mul_ge ((zlibC (nbtW p)).length + 5)
  have hn1 : 0 < bytes_to_sector ((zlibC (nbtW p)).length + 5) :=
    bts_pos _ (by omega)
  have hw := write_chunk_success nbtW zlibC now f x z p s true hpl hns hsec
    hnow (by omega)
  have hb1 := bts_mul_ge (f.size - 1)
  have hsize : (write_chunk nbtW zlibC now f x z p).2.size =
      (s + bytes_to_sector ((zlibC (nbtW p)).length + 5)) * 4096 := by
    rw [hw]
    dsimp only
    unfold afterSlot afterPad afterData
    rw [if_pos rfl, writeAt_size, writeAt_size, writeAt_size, writeAt_size]
    simp only [List.length_append, List.length_cons, List.length_nil,
      List.length_drop, be4, List.length_singleton]
    omega
  exact ⟨hs, by rw [hw], hsize, by rw [hsize]; omega⟩

set_option maxRecDepth 8000 in
/-- Witness for the amended C6 at `cf6` (the identity compressor and an
empty serialization): the append lands at sector 4 and the padded file ends
at `(4 + 1) * 4096 = 20480` bytes. -/
theorem c6_amended_append_at_eof_witness :
    findPlacement cf6 1 0 (bytes_to_sector ((idC (nbtW0 ())).length + 5))
      = .ok (4, true) ∧
    (4 = bytes_to_sector (cf6.size - 1) + 1 ∧
     (write_chunk nbtW0 idC 7 cf6 1 0 ()).1 = none ∧
     (write_chunk nbtW0 idC 7 cf6 1 0 ()).2.size =
       (4 + bytes_to_sector ((idC (nbtW0 ())).length + 5)) * 4096 ∧
     (write_chunk nbtW0 idC 7 cf6 1 0 ()).2.size % 4096 = 0) :=
  ⟨by decide,
   c6_amended_append_at_eof nbtW0 idC 7 cf6 1 0 () 4
     (by decide) (by decide) (by decide) (by decide) (by decide) (by decide)⟩

/-- C1 (code bug): on the append path with an exact sector fit
(`compressedSize + 5 = nsectors * 4096`), the write reports success, yet the
end-padding zero byte lands on the final byte of the just-written record
(`(s + nsectors)*4096 - 1` is `s*4096 + 5 + (compressedSize - 1)`, the last
data byte's position), so the stored record no longer matches the record
block that was written — the byte there reads 0 whatever the compressed
stream held, and a round-trip read cannot return the payload unless the
stream's last byte happened to be 0. -/
theorem c1_exact_fit_append_clobbers_final_byte {α : Type}
    (nbtW : α → List Nat) (zlibC : List Nat → List Nat) (now : Nat)
    (f : FFile) (x z : Nat) (p : α) (s : Nat)
    (hx : x < 32) (hz : z < 32)
    (hpl : findPlacement f x z (bytes_to_sector ((zlibC (nbtW p)).length + 5))
      = .ok (s, true))
    (hfit : (zlibC (nbtW p)).length + 5 =
      bytes_to_sector ((zlibC (nbtW p)).length + 5) * 4096)
    (hns : bytes_to_sector ((zlibC (nbtW p)).length + 5) ≤ 255)
    (hsec : s < 4294967296)
    (hnow : now < 4294967296) :
    (write_chunk nbtW zlibC now f x z p).1 = none ∧
    (s + bytes_to_sector ((zlibC (nbtW p)).length + 5)) * 4096 - 1 =
      s * 4096 + 5 + ((zlibC (nbtW p)).length - 1) ∧
    (write_chunk nbtW zlibC now f x z p).2.byte
      ((s + bytes_to_sector ((zlibC (nbtW p)).length + 5)) * 4096 - 1) = 0 ∧
    (be4 ((zlibC (nbtW p)).length + 1) ++ [2] ++ zlibC (nbtW p)).getD
      (5 + ((zlibC (nbtW p)).length - 1)) 0 =
      (zlibC (nbtW p)).getD ((zlibC (nbtW p)).length - 1) 0 := by
  obtain ⟨h8, hs⟩ := findPlacement_pad f x z _ s hpl
  have hn1 : 0 < bytes_to_sector ((zlibC (nbtW p)).length + 5) :=
    bts_pos _ (by omega)
  have hb1 := bts_mul_ge (f.size - 1)
  have hs3 : 3 ≤ s := by omega
  have hlenlb : 4091 ≤ (zlibC (nbtW p)).length := by omega
  have hw := write_chunk_success nbtW zlibC now f x z p s true hpl hns hsec
    hnow (by omega)
  refine ⟨by rw [hw], by omega, ?_, ?_⟩
  · rw [hw]
    dsimp only
    unfold afterSlot afterPad afterData
    rw [if_pos rfl]
    rw [writeAt_byte_out _ _ _ _ (by simp [be4]; omega)
        (by rw [writeAt_size, writeAt_size, writeAt_size]
            simp only [List.length_append, List.length_cons, List.length_nil,
              List.length_drop, be4, List.length_singleton]
            omega),
      writeAt_byte_out _ _ _ _
        (by simp only [List.length_append, List.length_cons, List.length_nil,
              List.length_drop, be4, List.length_singleton]
            omega)
        (by rw [writeAt_size, writeAt_size]
            simp only [List.length_append, List.length_cons, List.length_nil,
              be4, List.length_singleton]
            omega),
      writeAt_byte_in _ _ _ _ (le_refl _)
        (by simp only [List.length_cons, List.length_nil]; omega),
      Nat.sub_self, List.getD_cons_zero]
  · rw [List.getD_append_right _ _ _ _ (by simp [be4])]
    simp only [be4, List.length_append, List.length_cons, List.length_nil,
      List.length_singleton]
    congr 1
    omega

set_option maxRecDepth 8000 in
/-- Witness for C1: at `cf1` (one record filling sector 2, no gaps) a
4091-byte compressed stream of sevens appends at sector 4; the write reports
no error, yet byte 20479 — the last byte of the written record — reads 0. -/
theorem c1_exact_fit_append_clobbers_final_byte_witness :
    (zlC1 (nbtW0 ())).length + 5 =
      bytes_to_sector ((zlC1 (nbtW0 ())).length + 5) * 4096 ∧
    ((write_chunk nbtW0 zlC1 0 cf1 1 0 ()).1 = none ∧
     (4 + bytes_to_sector ((zlC1 (nbtW0 ())).length + 5)) * 4096 - 1 =
       4 * 4096 + 5 + ((zlC1 (nbtW0 ())).length - 1) ∧
     (write_chunk nbtW0 zlC1 0 cf1 1 0 ()).2.byte
       ((4 + bytes_to_sector ((zlC1 (nbtW0 ())).length + 5)) * 4096 - 1) = 0) :=
  ⟨by rw [zlC1, List.length_replicate]; decide,
   (c1_exact_fit_append_clobbers_final_byte nbtW0 zlC1 0 cf1 1 0 () 4
      (by decide) (by decide) (by rw [zlC1, List.length_replicate]; decide)
      (by rw [zlC1, List.length_replicate]; decide)
      (by rw [zlC1, List.length_replicate]; decide)
      (by decide) (by decide)).1,
   (c1_exact_fit_append_clobbers_final_byte nbtW0 zlC1 0 cf1 1 0 () 4
      (by decide) (by decide) (by rw [zlC1, List.length_replicate]; decide)
      (by rw [zlC1, List.length_replicate]; decide)
      (by rw [zlC1, List.length_replicate]; decide)
      (by decide) (by decide)).2.1,
   (c1_exact_fit_append_clobbers_final_byte nbtW0 zlC1 0 cf1 1 0 () 4
      (by decide) (by decide) (by rw [zlC1, List.length_replicate]; decide)
      (by rw [zlC1, List.length_replicate]; decide)
      (by rw [zlC1, List.length_replicate]; decide)
      (by decide) (by decide)).2.2.1⟩

end NBTRegion
